import Mathlib

/-!
Verification development for the lexsy-backend document slot-filling pipeline.

Shallow embedding conventions:
* Document text is modelled as `List Char` (`Text`); Python string/regex
  operations used by the code are re-implemented on `Text` with the exact
  semantics of the calls the source makes.
* Confidence scores (Python floats in [0,1]) are modelled as `ℚ`.
* LLM calls, `dateutil` date parsing, `float()` parsing and `uuid.uuid4()`
  are external collaborators: each is modelled as an oracle parameter, with
  the repository's own fallback logic embedded faithfully.
* File persistence (save / reload of the working copy) is the identity on
  the in-memory document tree, so the persist-and-reopen discipline of the
  templater becomes sequential state passing.
-/

/-! ## Text utilities (Python string/regex primitives on `List Char`) -/

abbrev Text := List Char

/-- Python `\s` whitespace class (ASCII part, as used by `str.strip` too). -/
def isPySpace (c : Char) : Bool :=
  c = ' ' || c = '\t' || c = '\n' || c = '\r' || c = '\x0b' || c = '\x0c'

/-- `pat` is a prefix of `s` (plain, case-sensitive). -/
def isPre : Text → Text → Bool
  | [], _ => true
  | _ :: _, [] => false
  | a :: ps, b :: ss => a = b && isPre ps ss

/-- `pat` occurs somewhere in `s` (Python `pat in s` / `re.search` of an
escaped literal succeeding). -/
def containsSub (pat : Text) : Text → Bool
  | [] => pat.isEmpty
  | c :: t => isPre pat (c :: t) || containsSub pat t

/-- Replace the first (leftmost) occurrence of `pat` in `s` by `repl`,
Python `re.sub(re.escape(pat), repl, s, count=1)`. -/
def replaceFirst (pat repl : Text) : Text → Text
  | [] => if pat.isEmpty then repl else []
  | c :: t => if isPre pat (c :: t) then repl ++ (c :: t).drop pat.length
              else c :: replaceFirst pat repl t

/-- Fuel-driven worker for `replaceAllSub` (fuel bounds the text length, so
the recursion is structural and kernel-computable). -/
def replaceAllAux (pat repl : Text) : Nat → Text → Text
  | _, [] => []
  | 0, s => s
  | fuel + 1, c :: t =>
    if pat.isEmpty = false ∧ isPre pat (c :: t) = true then
      repl ++ replaceAllAux pat repl fuel ((c :: t).drop pat.length)
    else
      c :: replaceAllAux pat repl fuel t

/-- Replace every (non-overlapping, left-to-right) occurrence of `pat` by
`repl`, Python `s.replace(pat, repl)` for non-empty `pat`. -/
def replaceAllSub (pat repl : Text) (s : Text) : Text :=
  replaceAllAux pat repl s.length s

/-- Fuel-driven worker for `countOccs`. -/
def countOccsAux (pat : Text) : Nat → Text → Nat
  | _, [] => 0
  | 0, _ => 0
  | fuel + 1, c :: t =>
    if pat.isEmpty = false ∧ isPre pat (c :: t) = true then
      1 + countOccsAux pat fuel ((c :: t).drop pat.length)
    else
      countOccsAux pat fuel t

/-- Number of non-overlapping, left-to-right occurrences of `pat` in `s`
(for non-empty `pat`). -/
def countOccs (pat : Text) (s : Text) : Nat :=
  countOccsAux pat s.length s

/-- Python `str.strip()` (whitespace from both ends). -/
def stripPyT (s : Text) : Text :=
  ((s.dropWhile isPySpace).reverse.dropWhile isPySpace).reverse

/-- Python `str.lower()` (ASCII). -/
def toLowerT (s : Text) : Text := s.map Char.toLower

/-- Concatenation of a list of texts (no separator). -/
def joinT (l : List Text) : Text := l.foldr (· ++ ·) []

/-! ## Core data model (`api/v2/models/models.py`) -/

/-- `PlaceholderType` enum. -/
inductive PlaceholderType where
  | TEXT | DATE | NUMBER | EMAIL | PHONE | ADDRESS | BOOLEAN | UNKNOWN
deriving DecidableEq, Repr

/-- The `.value` of each enum member (Python `str` values). -/
def PlaceholderType.value : PlaceholderType → String
  | .TEXT => "text"
  | .DATE => "date"
  | .NUMBER => "number"
  | .EMAIL => "email"
  | .PHONE => "phone"
  | .ADDRESS => "address"
  | .BOOLEAN => "boolean"
  | .UNKNOWN => "unknown"

/-- `PlaceHolder.value` is `Optional[str | int]`. -/
inductive PValue where
  | strV : String → PValue
  | intV : Int → PValue
deriving DecidableEq, Repr

/-- Python `str(value)`. -/
def PValue.str : PValue → String
  | .strV s => s
  | .intV n => toString n

/-- `PlaceholderAnalysis` record. -/
structure PlaceholderAnalysis where
  context_before : String
  context_after : String
  inferred_type : PlaceholderType
  confidence_score : ℚ
  validation_rules : List String
  suggested_value : Option String
  related_placeholders : List String
  question_hint : Option String
deriving DecidableEq, Repr

/-- `PlaceHolder` record. -/
structure PlaceHolder where
  name : String
  value : Option PValue
  placeholder : String
  unique_marker : String
  regex : String
  analysis : Option PlaceholderAnalysis
deriving DecidableEq, Repr

/-- `ConversationMessage` record. -/
structure ConversationMessage where
  role : String
  content : String
  timestamp : String
  confidence : Option ℚ
deriving DecidableEq, Repr

/-- `Document` record (the fields the verified operations touch). -/
structure Document where
  title : String
  placeholders : List PlaceHolder
  path : String
  temp_path : Option String
  langchain_session_id : Option String
  conversation_history : List ConversationMessage
deriving DecidableEq, Repr

/-! ## Progress (`PlaceholderService._calculate_progress`) -/

/-- Python's `round` on a rational: round half to even. -/
def roundHalfEven (q : ℚ) : ℤ :=
  let f : ℤ := ⌊q⌋
  let r : ℚ := q - (f : ℚ)
  if r < 1/2 then f
  else if 1/2 < r then f + 1
  else if f % 2 = 0 then f else f + 1

/-- Python `round(x, 1)` on a rational. -/
def round1 (q : ℚ) : ℚ := (roundHalfEven (q * 10) : ℚ) / 10

structure Progress where
  filled : Nat
  total : Nat
  percentage : ℚ
deriving DecidableEq, Repr

/-- `PlaceholderService._calculate_progress`. -/
def calculate_progress (doc : Document) : Progress :=
  let filled := doc.placeholders.countP (fun p => p.value.isSome)
  let total := doc.placeholders.length
  { filled := filled, total := total,
    percentage := round1 (if 0 < total then (filled : ℚ) / (total : ℚ) * 100 else 0) }

/-- Spec-side count of placeholders with absent value ("unfilled"). -/
def unfilled_count (doc : Document) : Nat :=
  doc.placeholders.countP (fun p => p.value.isNone)

/-! ## Conversational service (`api/v2/services/placeholder_service.py`)

The LangChain filler pipeline (extractor + validator + response generator)
is an LLM-backed collaborator of `process_message`; its per-turn outcome and
the generated messages are oracle parameters (`FillerEnv`).  The repository
store is modelled by returning the saved `Document` record. -/

/-- Outcome of `self.filler.process_message` for the current turn. -/
structure FillerResult where
  value_accepted : Bool
  extracted_value : Option PValue
  response : String
  confidence : Option ℚ
  validation_result : Option String
  needs_clarification : Option Bool

/-- Oracle bundle for the LLM-backed filler calls made by the service. -/
structure FillerEnv where
  process_result : FillerResult
  initial_question : String
  next_question : String
  completion_message : String

/-- The dict returned by `PlaceholderService.process_message`
(keys absent in a branch become `none`). -/
structure TurnResult where
  success : Bool
  conversation : List (String × String × String)
  all_filled : Bool
  message : String
  response : String
  current_placeholder : Option PlaceHolder
  next_placeholder : Option PlaceHolder
  completed : Bool
  value_accepted : Bool
  validation_result : Option String
  needs_clarification : Option Bool
  confidence : Option ℚ
  progress : Progress

/-- The dict returned by `PlaceholderService.start_session`. -/
structure StartResult where
  success : Bool
  session_id : String
  conversation : List (String × String × String)
  all_filled : Bool
  message : String
  current_placeholder : Option PlaceHolder
  completed : Bool
  progress : Option Progress

/-- The dict returned by `PlaceholderService.get_session_status`. -/
structure StatusResult where
  session_id : String
  document_id : String
  filled_count : Nat
  total_count : Nat
  completed : Bool
  current_placeholder : Option PlaceHolder
  conversation_history : List ConversationMessage

/-- The `conversation` list sent back to the client (role/content/timestamp). -/
def conversationDump (doc : Document) : List (String × String × String) :=
  doc.conversation_history.map (fun m => (m.role, m.content, m.timestamp))

/-- The completion message of the already-completed branch. -/
def allFilledMsg : String :=
  "All placeholders have been filled! You can now download your completed document."

/-- In-place mutation `current_placeholder.value = v` where
`current_placeholder` is the first list element with `value is None`. -/
def set_first_none (v : Option PValue) : List PlaceHolder → List PlaceHolder
  | [] => []
  | p :: ps => if p.value.isNone then { p with value := v } :: ps
               else p :: set_first_none v ps

/-- Spec-side: the first placeholder in document order with absent value. -/
def first_unfilled (l : List PlaceHolder) : Option PlaceHolder :=
  l.find? (fun p => p.value.isNone)

/-- `PlaceholderService.process_message` (returns the response dict and the
document record as saved back to the store; `now` is `datetime.now()`). -/
def process_message (env : FillerEnv) (doc : Document) (message : String)
    (now : String) : TurnResult × Document :=
  match doc.placeholders.find? (fun p => p.value.isNone) with
  | none =>
    let doc' := { doc with conversation_history :=
        doc.conversation_history ++ [⟨"assistant", allFilledMsg, now, none⟩] }
    ({ success := true, conversation := conversationDump doc', all_filled := true,
       message := allFilledMsg, response := allFilledMsg,
       current_placeholder := none, next_placeholder := none, completed := true,
       value_accepted := false, validation_result := none,
       needs_clarification := none, confidence := none,
       progress := calculate_progress doc' }, doc')
  | some cur =>
    let doc1 := { doc with conversation_history :=
        doc.conversation_history ++ [⟨"user", message, now, none⟩] }
    let progress := calculate_progress doc1
    let result := env.process_result
    if result.value_accepted then
      let phs' := set_first_none result.extracted_value doc1.placeholders
      let doc2 := { doc1 with placeholders := phs' }
      let progress2 := calculate_progress doc2
      match phs'.find? (fun p => p.value.isNone) with
      | some np =>
        let resp := env.next_question
        let doc3 := { doc2 with conversation_history :=
            doc2.conversation_history ++ [⟨"assistant", resp, now, result.confidence⟩] }
        ({ success := true, conversation := conversationDump doc3, all_filled := false,
           message := resp, response := resp,
           current_placeholder := some np, next_placeholder := some np,
           completed := false, value_accepted := true,
           validation_result := none, needs_clarification := none,
           confidence := result.confidence, progress := progress2 }, doc3)
      | none =>
        let cm := env.completion_message
        let doc3 := { doc2 with conversation_history :=
            doc2.conversation_history ++ [⟨"assistant", cm, now, result.confidence⟩] }
        ({ success := true, conversation := conversationDump doc3, all_filled := true,
           message := cm, response := cm,
           current_placeholder := none, next_placeholder := none,
           completed := true, value_accepted := true,
           validation_result := none, needs_clarification := none,
           confidence := result.confidence, progress := progress2 }, doc3)
    else
      let doc2 := { doc1 with conversation_history :=
          doc1.conversation_history ++ [⟨"assistant", result.response, now, result.confidence⟩] }
      ({ success := true, conversation := conversationDump doc2, all_filled := false,
         message := result.response, response := result.response,
         current_placeholder := some cur, next_placeholder := none,
         completed := false, value_accepted := false,
         validation_result := result.validation_result,
         needs_clarification := result.needs_clarification,
         confidence := result.confidence, progress := progress }, doc2)

/-- `PlaceholderService.start_session` (`session_id` is the fresh uuid; the
returned `Document` is the record as it ends up in the store — note the
final whole-record `save` writes back the locally fetched object, so the
`langchain_session_id` field update survives only in the all-filled branch). -/
def start_session (env : FillerEnv) (session_id : String) (doc : Document)
    (now : String) : StartResult × Document :=
  match doc.placeholders.find? (fun p => p.value.isNone) with
  | none =>
    ({ success := true, session_id := session_id, conversation := [],
       all_filled := true, message := "All placeholders are already filled!",
       current_placeholder := none, completed := true, progress := none },
     { doc with langchain_session_id := some session_id })
  | some first =>
    let doc' := { doc with conversation_history :=
        doc.conversation_history ++ [⟨"assistant", env.initial_question, now, none⟩] }
    ({ success := true, session_id := session_id, conversation := conversationDump doc',
       all_filled := false, message := env.initial_question,
       current_placeholder := some first, completed := false,
       progress := some (calculate_progress doc') }, doc')

/-- `PlaceholderService.get_session_status` (pure read). -/
def get_session_status (session_id document_id : String) (doc : Document) :
    StatusResult :=
  let progress := calculate_progress doc
  { session_id := session_id, document_id := document_id,
    filled_count := progress.filled, total_count := progress.total,
    completed := progress.filled = progress.total,
    current_placeholder := doc.placeholders.find? (fun p => p.value.isNone),
    conversation_history := doc.conversation_history }

/-! ## Concrete instances used by witnesses -/

def fillerResultC : FillerResult :=
  { value_accepted := true, extracted_value := some (.strV "Lexsy"),
    response := "ok", confidence := some 0.8, validation_result := none,
    needs_clarification := none }

def fillerEnvC : FillerEnv :=
  { process_result := fillerResultC,
    initial_question := "What is the company name?",
    next_question := "What is the date?",
    completion_message := "All done!" }

def phUnfilledC : PlaceHolder :=
  { name := "Company Name", value := none, placeholder := "[Company Name]",
    unique_marker := "\x7b\x7bPLACEHOLDER_AAAAAAAA\x7d\x7d",
    regex := "\\[Company\\ Name\\]", analysis := none }

def phFilledC : PlaceHolder :=
  { name := "Investor", value := some (.strV "YC"), placeholder := "[Investor]",
    unique_marker := "\x7b\x7bPLACEHOLDER_BBBBBBBB\x7d\x7d",
    regex := "\\[Investor\\]", analysis := none }

def docTwoC : Document :=
  { title := "t.docx", placeholders := [phFilledC, phUnfilledC], path := "uploads/t.docx",
    temp_path := some "uploads/temp/t.docx", langchain_session_id := none,
    conversation_history := [] }

def docFilledC : Document :=
  { title := "t.docx", placeholders := [phFilledC], path := "uploads/t.docx",
    temp_path := none, langchain_session_id := none, conversation_history := [] }

/-! ## Document text model (paragraphs / tables / runs, python-docx view) -/

structure Para where
  runs : List Text
deriving DecidableEq, Repr

/-- `paragraph.text` — concatenation of the run texts. -/
def Para.text (p : Para) : Text := joinT p.runs

structure TableCell where
  paras : List Para
deriving DecidableEq, Repr

/-- python-docx `cell.text` — paragraph texts joined by newlines. -/
def TableCell.text (c : TableCell) : Text :=
  joinT (List.intersperse ['\n'] (c.paras.map Para.text))

structure TableRow where
  cells : List TableCell
deriving DecidableEq, Repr

structure Table where
  rows : List TableRow
deriving DecidableEq, Repr

structure Docx where
  paras : List Para
  tables : List Table
deriving DecidableEq, Repr

/-- All text of the document tree (for stating marker-absence properties). -/
def Docx.fullText (d : Docx) : Text :=
  joinT (d.paras.map Para.text)
    ++ joinT (d.tables.map fun t =>
         joinT (t.rows.map fun r => joinT (r.cells.map TableCell.text)))

/-! ## Templater (`LangChainParser._create_temp_document`)

One pass of the loop body replaces, in the current working copy, the first
located occurrence of the placeholder's original text by its unique marker
(paragraphs first, then table cells depth-first), emptying every run of the
hit paragraph and putting the whole new text into its first run.  The
save/reload between placeholders is the identity on the document tree. -/

/-- `for run in para.runs: run.text = ""` then first run gets `nt`
(or a new run is added when the paragraph had none). -/
def collapseRuns (runs : List Text) (nt : Text) : List Text :=
  match runs with
  | [] => [nt]
  | _ :: rest => nt :: rest.map (fun _ => [])

/-- The paragraph produced when the substitution fires on `p`. -/
def collapsePara (pat marker : Text) (p : Para) : Para :=
  ⟨collapseRuns p.runs (replaceFirst pat marker p.text)⟩

/-- `pattern.search(para.text)` succeeded and the count-1 substitution
actually changed the text (the code only marks `replaced` in that case). -/
def paraHit (pat marker : Text) (p : Para) : Bool :=
  containsSub pat p.text && decide (replaceFirst pat marker p.text ≠ p.text)

/-- The paragraph loop: substitute in the first hit paragraph, break. -/
def replaceInParas (pat marker : Text) : List Para → List Para × Bool
  | [] => ([], false)
  | p :: ps =>
    if paraHit pat marker p then (collapsePara pat marker p :: ps, true)
    else
      let r := replaceInParas pat marker ps
      (p :: r.1, r.2)

/-- The paragraph loop inside one table cell. -/
def replaceInCell (pat marker : Text) (c : TableCell) : TableCell × Bool :=
  let r := replaceInParas pat marker c.paras
  (⟨r.1⟩, r.2)

/-- The cell loop of one row (breaks once replaced). -/
def replaceInCells (pat marker : Text) : List TableCell → List TableCell × Bool
  | [] => ([], false)
  | c :: cs =>
    let r := replaceInCell pat marker c
    if r.2 then (r.1 :: cs, true)
    else
      let rest := replaceInCells pat marker cs
      (c :: rest.1, rest.2)

/-- The row loop of one table (breaks once replaced). -/
def replaceInRows (pat marker : Text) : List TableRow → List TableRow × Bool
  | [] => ([], false)
  | r :: rs =>
    let cr := replaceInCells pat marker r.cells
    if cr.2 then (⟨cr.1⟩ :: rs, true)
    else
      let rest := replaceInRows pat marker rs
      (r :: rest.1, rest.2)

/-- The table loop (breaks once replaced). -/
def replaceInTables (pat marker : Text) : List Table → List Table × Bool
  | [] => ([], false)
  | t :: ts =>
    let rr := replaceInRows pat marker t.rows
    if rr.2 then (⟨rr.1⟩ :: ts, true)
    else
      let rest := replaceInTables pat marker ts
      (t :: rest.1, rest.2)

/-- One iteration of the placeholder loop of `_create_temp_document`
(the working copy is saved only when a substitution fired; otherwise a
warning is printed and the document is left as-is). -/
def temp_step (d : Docx) (ph : PlaceHolder) : Docx :=
  let pat := ph.placeholder.data
  let marker := ph.unique_marker.data
  let pr := replaceInParas pat marker d.paras
  if pr.2 then { d with paras := pr.1 }
  else
    let tr := replaceInTables pat marker d.tables
    if tr.2 then { d with tables := tr.1 } else d

/-- `_create_temp_document`: placeholders one at a time, in detection
order, each against the current state of the working copy. -/
def create_temp_document (d : Docx) (phs : List PlaceHolder) : Docx :=
  phs.foldl temp_step d

/-! ## Document generator (`DocumentGeneratorService.generate_document`) -/

/-- Per-run replacement: every occurrence of the marker inside a single
run's text is replaced by the value. -/
def genRun (marker val : Text) (r : Text) : Text :=
  if containsSub marker r then replaceAllSub marker val r else r

/-- Paragraph pass (top-level paragraphs): runs are rewritten only when the
paragraph text contains the marker. -/
def genPara (marker val : Text) (p : Para) : Para :=
  if containsSub marker p.text then ⟨p.runs.map (genRun marker val)⟩ else p

/-- Cell pass: runs of all cell paragraphs are rewritten when the cell text
contains the marker. -/
def genCell (marker val : Text) (c : TableCell) : TableCell :=
  if containsSub marker c.text then
    ⟨c.paras.map (fun p => ⟨p.runs.map (genRun marker val)⟩)⟩
  else c

/-- Substitution of one placeholder's marker by `str(value)` everywhere
(skipped for a `None` value, though generation already guards that). -/
def genApply (d : Docx) (ph : PlaceHolder) : Docx :=
  match ph.value with
  | none => d
  | some v =>
    let marker := ph.unique_marker.data
    let val := (PValue.str v).data
    { paras := d.paras.map (genPara marker val),
      tables := d.tables.map (fun t =>
        ⟨t.rows.map (fun r => ⟨r.cells.map (genCell marker val)⟩)⟩) }

/-- `DocumentGeneratorService.generate_document` on the working copy:
raises when any placeholder value is absent, otherwise substitutes every
(within-run) marker occurrence and returns the new output document. -/
def generate_document (phs : List PlaceHolder) (working : Docx) :
    Except String Docx :=
  if 0 < phs.countP (fun p => p.value.isNone) then
    Except.error ("Document has "
      ++ toString (phs.countP (fun p => p.value.isNone))
      ++ " unfilled placeholders")
  else
    Except.ok (phs.foldl genApply working)

/-- Did generation produce an output (no exception)? -/
def exceptOk : Except String Docx → Bool
  | .ok _ => true
  | .error _ => false

/-! ## Parser marker assignment (`LangChainParser.parse_document`)

Per detection, the parser builds a `PlaceHolder` whose `unique_marker` is
`"{{PLACEHOLDER_" + uuid4().hex[:8].upper() + "}}"` — also on the
exception path.  The context-analysis / classification tools are LLM-backed
(with their own fallbacks); their composed outcome for a detection is the
`analysis_of` oracle (`none` = the `except` branch), and the LLM name for a
blank label is the `name_of` oracle.  `uuid_hex` supplies the successive
`uuid.uuid4().hex` draws. -/

/-- `PlaceholderDetection` record of the detector tool. -/
structure PlaceholderDetection where
  text : String
  start_pos : Nat
  end_pos : Nat
  context_before : String
  context_after : String
  confidence : ℚ
deriving DecidableEq, Repr

/-- The characters stripped by `detection.text.strip("[]{}()<>_")`. -/
def bracketChars : List Char :=
  ['[', ']', '\x7b', '\x7d', '(', ')', '<', '>', '_']

/-- Python `str.strip(chars)`. -/
def stripSet (cs : List Char) (s : Text) : Text :=
  ((s.dropWhile (cs.contains ·)).reverse.dropWhile (cs.contains ·)).reverse

/-- Python `re.escape` (escapes everything except ASCII alphanumerics
and `_`). -/
def reEscape : Text → Text
  | [] => []
  | c :: t => (if c.isAlphanum || c = '_' then [c] else ['\\', c]) ++ reEscape t

/-- `"{{PLACEHOLDER_" + t + "}}"`. -/
def mkMarkerCore (t : Text) : String :=
  ⟨"\x7b\x7bPLACEHOLDER_".data ++ t ++ "\x7d\x7d".data⟩

/-- The 8-hex-character truncation actually embedded into the marker. -/
def markerTrunc (hex : String) : Text := (hex.data.take 8).map Char.toUpper

/-- `f"{{{{PLACEHOLDER_{uuid.uuid4().hex[:8].upper()}}}}}"`. -/
def mkUniqueMarker (hex : String) : String := mkMarkerCore (markerTrunc hex)

/-- Oracles consumed by one `parse_document` run. -/
structure ParseEnv where
  uuid_hex : Nat → String
  analysis_of : Nat → Option PlaceholderAnalysis
  name_of : Nat → String

/-- `LangChainParser.parse_document` restricted to the placeholder-record
construction (the working-copy creation is `create_temp_document`). -/
def parse_document (env : ParseEnv) (detections : List PlaceholderDetection) :
    List PlaceHolder :=
  detections.enum.map fun idxDet =>
    let idx := idxDet.1
    let det := idxDet.2
    let cleaned := stripSet bracketChars det.text.data
    match env.analysis_of idx with
    | some analysis =>
      let name : Text :=
        if (stripPyT cleaned).isEmpty then (env.name_of idx).data else cleaned
      { name := ⟨name⟩, value := none, placeholder := det.text,
        unique_marker := mkUniqueMarker (env.uuid_hex idx),
        regex := ⟨reEscape det.text.data⟩, analysis := some analysis }
    | none =>
      { name := ⟨cleaned⟩, value := none, placeholder := det.text,
        unique_marker := mkUniqueMarker (env.uuid_hex idx),
        regex := ⟨reEscape det.text.data⟩, analysis := none }

/-- Oracle run in which two distinct detections draw uuids whose first 8
hex characters coincide. -/
def parseEnvDupC : ParseEnv :=
  { uuid_hex := fun _ => "aabbccdd11223344eeff001122334455",
    analysis_of := fun _ => none,
    name_of := fun _ => "Required Information" }

/-- Oracle run with pairwise distinct uuid truncations. -/
def parseEnvOkC : ParseEnv :=
  { uuid_hex := fun i =>
      if i = 0 then "aaaabbbbccccdddd0000111122223333"
      else "eeeeffff8888999900001111aaaabbbb",
    analysis_of := fun _ => none,
    name_of := fun _ => "Required Information" }

def detAC : PlaceholderDetection :=
  { text := "[Company Name]", start_pos := 14, end_pos := 28,
    context_before := "Company Name:", context_after := "", confidence := 0.9 }

def detBC : PlaceholderDetection :=
  { text := "[Date]", start_pos := 36, end_pos := 42,
    context_before := "Date:", context_after := "", confidence := 0.9 }

/-! ## Hybrid validator (`app/langchain/validators/hybrid_validator.py`)

`dateutil.parser.parse` (we only need the parsed year; `none` = exception),
`datetime.now().year` and Python's `float()` acceptance are external
collaborators gathered in `ValidatorEnv`.  The LLM confidence response is
an `Option ℚ` (`none` = the call or the float parse of its reply raised). -/

structure RuleResult where
  passed : Bool
  confidence : ℚ
  message : String
  suggestion : Option String
deriving DecidableEq, Repr

structure ValidationResult where
  is_valid : Bool
  confidence : ℚ
  validation_message : String
  suggested_correction : Option String
deriving DecidableEq, Repr

structure ValidatorEnv where
  dateParseYear : String → Option Int
  current_year : Int
  floatOk : Text → Bool

/-- `[a-zA-Z0-9._%+-]`. -/
def emailLocalChar (c : Char) : Bool :=
  c.isAlpha || c.isDigit || c = '.' || c = '_' || c = '%' || c = '+' || c = '-'

/-- `[a-zA-Z0-9.-]`. -/
def emailDomChar (c : Char) : Bool :=
  c.isAlpha || c.isDigit || c = '.' || c = '-'

/-- `[a-zA-Z]{2,}$` on the remaining text (`$` also matches just before a
final newline). -/
def emailTldOk (t : Text) : Bool :=
  let a := t.takeWhile (fun c => c.isAlpha)
  let r := t.drop a.length
  2 ≤ a.length && (r.isEmpty || r = ['\n'])

/-- `[a-zA-Z0-9.-]+\.[a-zA-Z]{2,}$` — acceptance of the backtracking regex
is existence of a split. -/
def emailDomOk (l : Text) : Bool :=
  (List.range l.length).any fun k =>
    decide (0 < k) && (l.take k).all emailDomChar &&
      (match l.drop k with
       | '.' :: tail => emailTldOk tail
       | _ => false)

/-- `re.match(r"^[a-zA-Z0-9._%+-]+@[a-zA-Z0-9.-]+\.[a-zA-Z]{2,}$", s)`
succeeds (`@` is in neither class, so the local part is the maximal run). -/
def emailMatch (s : Text) : Bool :=
  let loc := s.takeWhile emailLocalChar
  decide (0 < loc.length) &&
    (match s.drop loc.length with
     | '@' :: r2 => emailDomOk r2
     | _ => false)

/-- `HybridValidator._validate_email`. -/
def validate_email (value : String) : RuleResult :=
  if emailMatch value.data = false then
    { passed := false, confidence := 0,
      message := "Invalid email format. Please use format like: user@example.com",
      suggestion := some "e.g., john@company.com" }
  else
    { passed := true, confidence := 0.95, message := "Valid email format",
      suggestion := none }

/-- `[\s\-\(\)\+]` — the separators stripped before the digit check. -/
def phoneStripChar (c : Char) : Bool :=
  isPySpace c || c = '-' || c = '(' || c = ')' || c = '+'

/-- Python `str.isdigit` (ASCII digits; non-empty). -/
def pyIsDigit (s : Text) : Bool := !s.isEmpty && s.all Char.isDigit

/-- `HybridValidator._validate_phone`. -/
def validate_phone (value : String) : RuleResult :=
  let digits := value.data.filter (fun c => !phoneStripChar c)
  if pyIsDigit digits = false then
    { passed := false, confidence := 0,
      message := "Phone number should contain only digits and separators",
      suggestion := some "e.g., +1-555-123-4567 or 5551234567" }
  else if digits.length < 10 || 15 < digits.length then
    { passed := false, confidence := 0,
      message := "Phone number should be 10-15 digits (got "
        ++ toString digits.length ++ ")",
      suggestion := some "Include country code if international" }
  else
    { passed := true, confidence := 0.9, message := "Valid phone format",
      suggestion := none }

/-- `HybridValidator._validate_date`. -/
def validate_date (env : ValidatorEnv) (value : String) : RuleResult :=
  match env.dateParseYear value with
  | none =>
    { passed := false, confidence := 0,
      message := "Could not parse date. Please use format like: MM/DD/YYYY or YYYY-MM-DD",
      suggestion := some "e.g., 12/25/2024 or 2024-12-25" }
  | some y =>
    if y < 1900 || env.current_year + 50 < y then
      { passed := false, confidence := 0,
        message := "Date year " ++ toString y ++ " seems unusual",
        suggestion := some "Please double-check the year" }
    else
      { passed := true, confidence := 0.9, message := "Valid date format",
        suggestion := none }

/-- `[$,€£¥\s]` — stripped before the `float()` attempt. -/
def numberStripChar (c : Char) : Bool :=
  c = '$' || c = ',' || c = '€' || c = '£' || c = '¥' || isPySpace c

/-- `HybridValidator._validate_number`. -/
def validate_number (env : ValidatorEnv) (value : String) : RuleResult :=
  let cleaned := value.data.filter (fun c => !numberStripChar c)
  if env.floatOk cleaned then
    { passed := true, confidence := 0.95, message := "Valid number",
      suggestion := none }
  else
    { passed := false, confidence := 0, message := "Not a valid number",
      suggestion := some "e.g., 1234.56 or $1,234.56" }

/-- `HybridValidator._validate_address`. -/
def validate_address (value : String) : RuleResult :=
  let vs := stripPyT value.data
  if vs.length = 2 && vs.all Char.isAlpha then
    { passed := true, confidence := 0.85, message := "Valid (state code)",
      suggestion := none }
  else if vs.length < 3 then
    { passed := false, confidence := 0, message := "Too short",
      suggestion := some "AZ or 123 Main St, City, State" }
  else if value.data.any Char.isAlpha = false then
    { passed := false, confidence := 0, message := "Invalid format",
      suggestion := some "AZ or 123 Main St, City, State" }
  else
    { passed := true, confidence := 0.85, message := "Valid", suggestion := none }

/-- `HybridValidator._validate_text` (note: the empty-value failure carries
`suggestion = None`). -/
def validate_text (value : String) : RuleResult :=
  let vs := stripPyT value.data
  if vs.length = 0 then
    { passed := false, confidence := 0, message := "Value cannot be empty",
      suggestion := none }
  else if vs.length = 1 then
    { passed := true, confidence := 0.75, message := "Valid (short input)",
      suggestion := none }
  else
    { passed := true, confidence := 0.9, message := "Valid", suggestion := none }

/-- `HybridValidator._rule_based_validation` (TEXT, BOOLEAN and UNKNOWN all
reach the text rule). -/
def rule_based_validation (env : ValidatorEnv) (value : String)
    (t : PlaceholderType) : RuleResult :=
  match t with
  | .EMAIL => validate_email value
  | .PHONE => validate_phone value
  | .DATE => validate_date env value
  | .NUMBER => validate_number env value
  | .ADDRESS => validate_address value
  | _ => validate_text value

/-- `HybridValidator._llm_confidence_check`: clamp a parsed reply to
`[0, 1]`; any exception yields the fixed fallback `0.7`. -/
def llm_confidence_check (resp : Option ℚ) : ℚ :=
  match resp with
  | none => 0.7
  | some c => max 0 (min 1 c)

/-- `HybridValidator._generate_message`. -/
def generate_message (confidence : ℚ) (t : PlaceholderType) : String :=
  if 0.6 ≤ confidence then "Accepted" else "Invalid " ++ t.value

/-- `HybridValidator.validate`. -/
def validate (env : ValidatorEnv) (value : String) (t : PlaceholderType)
    (llmResp : Option ℚ) : ValidationResult :=
  let rule := rule_based_validation env value t
  if rule.passed = false then
    { is_valid := false, confidence := 0,
      validation_message := rule.message,
      suggested_correction := rule.suggestion }
  else
    let llm := llm_confidence_check llmResp
    let final :=
      if 0.75 ≤ rule.confidence then rule.confidence * 0.5 + llm * 0.5
      else rule.confidence * 0.4 + llm * 0.6
    { is_valid := decide (0.5 < final), confidence := final,
      validation_message := generate_message final t,
      suggested_correction := none }

/-- A concrete validator environment for the witnesses. -/
def envValC : ValidatorEnv :=
  { dateParseYear := fun _ => none, current_year := 2026,
    floatOk := fun _ => false }

/-! ## Placeholder detector (`app/langchain/tools/detector_tool.py`)

The seven `PLACEHOLDER_PATTERNS` are scanned with `re.finditer`; Python's
`re` engine is the external matcher, so `finditer i` is an oracle giving
that pattern's raw matches in document order.  The LLM scoring call is the
`llm_score` oracle (`none` = exception), with the repository's structural
filter and heuristic fallback embedded from the source. -/

structure RawMatch where
  text : String
  start_pos : Nat
  end_pos : Nat
deriving DecidableEq, Repr

structure DetectorEnv where
  finditer : Nat → List RawMatch
  llm_score : String → String → String → Option ℚ

/-- The characters removed before inspecting a match's content
(`re.sub(r"[\[\]{}()<>]", "", text)`). -/
def bracketOnlyChars : List Char :=
  ['[', ']', '\x7b', '\x7d', '(', ')', '<', '>']

/-- `re.search(r"\.\s+[A-Z]", s)` succeeds at this position: a period, at
least one whitespace, then an uppercase letter (only the character after
the maximal whitespace run can be the uppercase one). -/
def dotSpaceUpperAt (s : Text) : Bool :=
  match s with
  | '.' :: t =>
    let w := t.takeWhile isPySpace
    decide (0 < w.length) &&
      (match t.drop w.length with
       | c :: _ => c.isUpper
       | [] => false)
  | _ => false

/-- `re.search(r"\.\s+[A-Z]", s)` succeeds somewhere. -/
def hasDotSpaceUpper : Text → Bool
  | [] => false
  | c :: t => dotSpaceUpperAt (c :: t) || hasDotSpaceUpper t

/-- `PlaceholderDetectorTool._is_valid_placeholder_structure`. -/
def is_valid_placeholder_structure (text : Text) : Bool :=
  let content := stripPyT (text.filter (fun c => !bracketOnlyChars.contains c))
  if 60 < content.length then false
  else if hasDotSpaceUpper content then false
  else if containsSub "http://".data content
      || containsSub "https://".data content
      || containsSub ".com".data content then false
  else if 2 ≤ content.count (Char.ofNat 34) ∧ 40 < content.length then false
  else if isPre "__]".data content
      || isPre "[__".data.reverse content.reverse then false
  else true

/-- `re.match(r"^[\[{<]+_+[\]}>]+$", text)` succeeds (the three character
classes are disjoint, so the greedy runs are the maximal ones). -/
def blankShape (text : Text) : Bool :=
  let o := text.takeWhile (fun c => c = '[' || c = '\x7b' || c = '<')
  let r1 := text.drop o.length
  let u := r1.takeWhile (fun c => c = '_')
  let r2 := r1.drop u.length
  let cl := r2.takeWhile (fun c => c = ']' || c = '\x7d' || c = '>')
  let r3 := r2.drop cl.length
  decide (0 < o.length) && decide (0 < u.length) && decide (0 < cl.length)
    && (r3.isEmpty || r3 = ['\n'])

/-- `PlaceholderDetectorTool._heuristic_confidence`. -/
def heuristic_confidence (text : Text) : ℚ :=
  let text_lower := toLowerT text
  if ["name", "date", "address", "phone", "email", "state", "company"].any
      (fun w => containsSub w.data text_lower) then 0.9
  else if ["insert", "fill", "enter", "provide"].any
      (fun w => containsSub w.data text_lower) then 0.7
  else if blankShape text then 0.9
  else 0.6

/-- `PlaceholderDetectorTool._validate_placeholder`: clamp the parsed LLM
score to `[0, 1]`; on any exception fall back to the heuristic. -/
def validate_placeholder (env : DetectorEnv) (text cb ca : Text) : ℚ :=
  match env.llm_score ⟨text⟩ ⟨cb⟩ ⟨ca⟩ with
  | some score => max 0 (min 1 score)
  | none => heuristic_confidence text

/-- Processing of one raw match inside `_run`: structural filter, context
windows, confidence, and the `> 0.5` cut. -/
def detection_of (env : DetectorEnv) (document_text : Text) (m : RawMatch) :
    Option PlaceholderDetection :=
  if is_valid_placeholder_structure m.text.data = false then none
  else
    let cb := stripPyT ((document_text.take m.start_pos).drop (m.start_pos - 150))
    let ca := stripPyT ((document_text.drop m.end_pos).take 150)
    let conf := validate_placeholder env m.text.data cb ca
    if 0.5 < conf then
      some { text := m.text, start_pos := m.start_pos, end_pos := m.end_pos,
             context_before := ⟨cb⟩, context_after := ⟨ca⟩, confidence := conf }
    else none

/-- The `detections` list before deduplication: per-pattern matches in
pattern order (earlier pattern first), each filtered and scored. -/
def raw_detections (env : DetectorEnv) (document_text : Text) :
    List PlaceholderDetection :=
  (List.range 7).flatMap
    (fun i => (env.finditer i).filterMap (detection_of env document_text))

/-- The duplicate-removal loop over `seen_positions`. -/
def dedup_by_start (seen : List Nat) :
    List PlaceholderDetection → List PlaceholderDetection
  | [] => []
  | d :: ds =>
    if d.start_pos ∈ seen then dedup_by_start seen ds
    else d :: dedup_by_start (d.start_pos :: seen) ds

/-- `PlaceholderDetectorTool._run`. -/
def detector_run (env : DetectorEnv) (document_text : Text) :
    List PlaceholderDetection :=
  dedup_by_start [] (raw_detections env document_text)

/-- Concrete detector oracle: both of the first two patterns match the same
bracketed span; the LLM is down, so the keyword heuristic scores it. -/
def detEnvC : DetectorEnv :=
  { finditer := fun i =>
      if i = 0 then [{ text := "[Company Name]", start_pos := 14, end_pos := 28 }]
      else if i = 1 then [{ text := "[Company Name]", start_pos := 14, end_pos := 28 }]
      else [],
    llm_score := fun _ _ _ => none }

/-! ## Value extractor fallback (`agents/value_extractor.py`)

`ValueExtractor._fallback_extraction` runs when the LLM call fails.  Its
four extraction regexes are re-implemented on `Text` with Python
`re.search` semantics: leftmost match, alternation tried in order, greedy
`\s+` and `(.+)` with backtracking, lazy `(.+?)`, `.` not matching a
newline, and `$` matching at the end or just before a final newline.
(The alternation literals all start with non-whitespace characters, so a
greedy `\s+` directly in front of them can only succeed on its maximal
run.) -/

structure ExtractionResult where
  extracted_value : Option String
  confidence : ℚ
  needs_clarification : Bool
  reasoning : String
deriving DecidableEq, Repr

/-- Case-insensitive literal prefix (patterns are written lowercase). -/
def ciPre : Text → Text → Bool
  | [], _ => true
  | _ :: _, [] => false
  | a :: ps, b :: ss => a = b.toLower && ciPre ps ss

/-- `(.+)$`: the greedy dot run must reach the end (or leave exactly one
final newline); shorter runs always leave `$` unmatched. -/
def dotPlusDollar (u : Text) : Option Text :=
  let v := u.takeWhile (fun c => c ≠ '\n')
  let rest := u.drop v.length
  if v.isEmpty then none
  else if rest.isEmpty || rest = ['\n'] then some v
  else none

/-- Backtracking over the `\s+` length, longest first (`k` counts down). -/
def wsThenCapture : Nat → Text → Option Text
  | 0, _ => none
  | k + 1, t =>
    match dotPlusDollar (t.drop (k + 1)) with
    | some cap => some cap
    | none => wsThenCapture k t

/-- `\s+(.+)$` on the text following an alternation literal. -/
def tailWsDotDollar (t : Text) : Option Text :=
  wsThenCapture (t.takeWhile isPySpace).length t

/-- At one position: try the alternation literals in order; if a literal
matches but the tail fails, fall through to the next literal. -/
def firstAltTail (alts : List Text) (s : Text) : Option Text :=
  alts.foldr
    (fun a acc =>
      if ciPre a s then
        match tailWsDotDollar (s.drop a.length) with
        | some c => some c
        | none => acc
      else acc)
    none

/-- `re.search` of `(?:alt1|alt2|...)\s+(.+)$`: scan positions left to
right. -/
def searchPattern (alts : List Text) : Text → Option Text
  | [] => none
  | c :: t =>
    match firstAltTail alts (c :: t) with
    | some cap => some cap
    | none => searchPattern alts t

/-- `r"(?:is|are|was|were)\s+(.+)$"`. -/
def p1Capture (m : Text) : Option Text :=
  searchPattern ["is".data, "are".data, "was".data, "were".data] m

/-- `r"(?:it's|its)\s+(.+)$"`. -/
def p2Capture (m : Text) : Option Text :=
  searchPattern ["it\x27s".data, "its".data] m

/-- `r"(?:called|named)\s+(.+)$"`. -/
def p3Capture (m : Text) : Option Text :=
  searchPattern ["called".data, "named".data] m

/-- One `n` of `r"^(.+?)\s+(?:is|was|are).*"`: after the lazy group of
length `n`, a whitespace run and then one of the literals (the trailing
`.*` always matches). -/
def p4TryAt (m : Text) (n : Nat) : Bool :=
  let t := m.drop n
  let w := t.takeWhile isPySpace
  decide (0 < w.length) &&
    (["is".data, "was".data, "are".data].any (fun a => ciPre a (t.drop w.length)))

/-- Lazy `(.+?)`: shortest `n` first, `n = 1 .. maxN`. -/
def p4Scan (m : Text) : Nat → Nat → Option Text
  | _, 0 => none
  | n, fuel + 1 =>
    if p4TryAt m n then some (m.take n) else p4Scan m (n + 1) fuel

/-- `r"^(.+?)\s+(?:is|was|are).*"` (anchored; the group cannot cross a
newline). -/
def p4Capture (m : Text) : Option Text :=
  let maxN := (m.takeWhile (fun c => c ≠ '\n')).length
  if maxN = 0 then none else p4Scan m 1 maxN

/-- `re.sub(r"\s+and\s+it.*$", "", e)` matches at this position (inputs
contain no newline, so the trailing `.*$` always reaches the end). -/
def wsAndItAt (s : Text) : Bool :=
  let w := s.takeWhile isPySpace
  decide (0 < w.length) &&
    (let s1 := s.drop w.length
     ciPre "and".data s1 &&
       (let s2 := s1.drop 3
        let w2 := s2.takeWhile isPySpace
        decide (0 < w2.length) && ciPre "it".data (s2.drop w2.length)))

/-- The cleanup sub: truncate at the first `\s+and\s+it` (the match runs to
the end of the string). -/
def cleanupCapture : Text → Text
  | [] => []
  | c :: t => if wsAndItAt (c :: t) then [] else c :: cleanupCapture t

/-- Per-pattern post-processing of a raw capture: `.strip()`, the cleanup
sub, then the `extracted and len(extracted) > 1` check. -/
def patCheck (c : Option Text) : Option Text :=
  match c with
  | none => none
  | some cap =>
    let e := cleanupCapture (stripPyT cap)
    if e.isEmpty = false ∧ 1 < e.length then some e else none

/-- The `for pattern in patterns` loop (a failed length check falls through
to the next pattern). -/
def tryPatterns (m : Text) : Option Text :=
  match patCheck (p1Capture m) with
  | some v => some v
  | none =>
    match patCheck (p2Capture m) with
    | some v => some v
    | none =>
      match patCheck (p3Capture m) with
      | some v => some v
      | none => patCheck (p4Capture m)

/-- Spec-side reformulation: the first pattern in order whose cleaned
capture survives the length check. -/
def ordered_pattern_value (m : Text) : Option Text :=
  [p1Capture m, p2Capture m, p3Capture m, p4Capture m].foldr
    (fun c acc =>
      match patCheck c with
      | some v => some v
      | none => acc)
    none

/-- The interrogative keywords (substring check on the lowercased message,
as the code does). -/
def question_words : List Text :=
  ["what".data, "how".data, "why".data, "when".data, "where".data,
   "which".data, "who".data, "?".data]

def isQuestionLike (m : Text) : Bool :=
  question_words.any (fun w => containsSub w (toLowerT m))

/-- `ValueExtractor._fallback_extraction`. -/
def fallback_extraction (message : String) : ExtractionResult :=
  let m := stripPyT message.data
  if isQuestionLike m then
    { extracted_value := none, confidence := 0, needs_clarification := true,
      reasoning := "Message appears to be a question" }
  else if m.length < 2 then
    { extracted_value := none, confidence := 0, needs_clarification := true,
      reasoning := "Message too short" }
  else
    match tryPatterns m with
    | some v =>
      { extracted_value := some ⟨v⟩, confidence := 0.75,
        needs_clarification := false,
        reasoning := "Extracted using pattern matching" }
    | none =>
      if m.length < 200 then
        { extracted_value := some ⟨m⟩, confidence := 0.6,
          needs_clarification := false,
          reasoning := "Direct input without pattern" }
      else
        { extracted_value := none, confidence := 0, needs_clarification := true,
          reasoning := "Message too complex" }

/-! ## Concrete documents for the templating / generation scenarios -/

/-- First detection record of the duplicated `[Date]` placeholder. -/
def phD1 : PlaceHolder :=
  { name := "Date", value := none, placeholder := "[Date]",
    unique_marker := "\x7b\x7bPLACEHOLDER_AAAA1111\x7d\x7d",
    regex := "\\[Date\\]", analysis := none }

/-- Second detection record of the same `[Date]` text, fresh marker. -/
def phD2 : PlaceHolder :=
  { name := "Date", value := none, placeholder := "[Date]",
    unique_marker := "\x7b\x7bPLACEHOLDER_BBBB2222\x7d\x7d",
    regex := "\\[Date\\]", analysis := none }

/-- Source document with `[Date]` once in a (multi-run) paragraph and once
in a table cell. -/
def docDupC : Docx :=
  { paras := [⟨["Start: ".data, "[Da".data, "te]".data]⟩],
    tables := [⟨[⟨[⟨[⟨["End: [Date]".data]⟩]⟩]⟩]⟩] }

/-- Expected working copy: first occurrence got the first marker (runs
collapsed onto the first one), the table occurrence got the second. -/
def docDupExpectedC : Docx :=
  { paras := [⟨["Start: \x7b\x7bPLACEHOLDER_AAAA1111\x7d\x7d".data, [], []]⟩],
    tables := [⟨[⟨[⟨[⟨["End: \x7b\x7bPLACEHOLDER_BBBB2222\x7d\x7d".data]⟩]⟩]⟩]⟩] }

/-- The same two placeholders with accepted values, for generation. -/
def phD1filled : PlaceHolder := { phD1 with value := some (.strV "2024-01-01") }

def phD2filled : PlaceHolder := { phD2 with value := some (.strV "2025-02-02") }

/-- Expected generated output for `docDupExpectedC`. -/
def docGenExpectedC : Docx :=
  { paras := [⟨["Start: 2024-01-01".data, [], []]⟩],
    tables := [⟨[⟨[⟨[⟨["End: 2025-02-02".data]⟩]⟩]⟩]⟩] }

/-- A placeholder whose marker got split across two runs of the working
copy (filled, so generation is not blocked). -/
def phSplitC : PlaceHolder :=
  { name := "Company", value := some (.strV "X Corp"), placeholder := "[Company]",
    unique_marker := "\x7b\x7bPLACEHOLDER_CCCCCCCC\x7d\x7d",
    regex := "\\[Company\\]", analysis := none }

/-- Working copy where `phSplitC`'s marker spans a run boundary. -/
def docSplitC : Docx :=
  { paras := [⟨["\x7b\x7bPLACEHOLDER_CC".data, "CCCCCC\x7d\x7d".data]⟩],
    tables := [] }

/-! ## Helper lemmas -/

theorem countP_isSome_add_isNone (l : List PlaceHolder) :
    l.countP (fun p => p.value.isSome) + l.countP (fun p => p.value.isNone) = l.length := by
  induction l with
  | nil => simp
  | cons p t ih =>
    rcases h : p.value with _ | v <;>
      simp [List.countP_cons, h, ← ih] <;> omega

theorem round1_zero : round1 0 = 0 := by
  simp [round1, roundHalfEven]

/-- C9: for every document, the progress record satisfies
`filled + unfilled = total`, and `percentage = round(filled/total*100, 1)`
(with `percentage = 0` when `total = 0`). -/
theorem claim9_progress_invariant (doc : Document) :
    (calculate_progress doc).filled + unfilled_count doc = (calculate_progress doc).total
    ∧ (calculate_progress doc).percentage =
        (if (calculate_progress doc).total = 0 then 0
         else round1 (((calculate_progress doc).filled : ℚ)
            / ((calculate_progress doc).total : ℚ) * 100)) := by
  refine ⟨countP_isSome_add_isNone doc.placeholders, ?_⟩
  by_cases h : doc.placeholders.length = 0
  · simp [calculate_progress, unfilled_count, h, round1_zero]
  · have h' : 0 < doc.placeholders.length := Nat.pos_of_ne_zero h
    simp [calculate_progress, unfilled_count, h, h']

theorem find?_isNone_none_of_all_isSome (l : List PlaceHolder)
    (h : l.all (fun p => p.value.isSome) = true) :
    l.find? (fun p => p.value.isNone) = none := by
  rw [List.find?_eq_none]
  intro x hx
  have hs := List.all_eq_true.mp h x hx
  cases hv : x.value <;> simp_all

theorem first_unfilled_some_spec (l : List PlaceHolder) (p : PlaceHolder)
    (h : first_unfilled l = some p) :
    p.value = none ∧ ∃ l1 l2, l = l1 ++ p :: l2 ∧ ∀ q ∈ l1, q.value ≠ none := by
  induction l with
  | nil => simp [first_unfilled] at h
  | cons a t ih =>
    rw [first_unfilled, List.find?_cons] at h
    by_cases ha : a.value.isNone
    · simp only [ha, cond_true] at h
      cases h
      exact ⟨Option.eq_none_of_isNone ha, [], t, rfl, by simp⟩
    · simp only [Bool.not_eq_true] at ha
      simp only [ha, cond_false] at h
      obtain ⟨hv, l1, l2, hl, hall⟩ := ih h
      refine ⟨hv, a :: l1, l2, by simp [hl], ?_⟩
      intro q hq
      rcases List.mem_cons.mp hq with rfl | hq'
      · intro hcontra
        rw [hcontra] at ha
        simp at ha
      · exact hall q hq'

theorem first_unfilled_none_spec (l : List PlaceHolder)
    (h : first_unfilled l = none) : ∀ p ∈ l, p.value ≠ none := by
  intro p hp hcontra
  rw [first_unfilled, List.find?_eq_none] at h
  have := h p hp
  simp [hcontra] at this

/-- C5: the "current placeholder" surfaced by `process_message` (evaluated on
the post-turn document), `start_session` and `get_session_status` is in every
branch exactly the first placeholder in document order whose value is absent;
no cursor exists besides the placeholder list, and `first_unfilled` is
genuinely that first-in-order unfilled placeholder. -/
theorem claim5_current_is_first_unfilled (env : FillerEnv) (doc : Document)
    (msg now sid did : String) :
    ((process_message env doc msg now).1.current_placeholder
       = first_unfilled (process_message env doc msg now).2.placeholders)
    ∧ ((start_session env sid doc now).1.current_placeholder
       = first_unfilled doc.placeholders)
    ∧ ((get_session_status sid did doc).current_placeholder
       = first_unfilled doc.placeholders)
    ∧ (∀ p, first_unfilled doc.placeholders = some p →
         p.value = none
         ∧ ∃ l1 l2, doc.placeholders = l1 ++ p :: l2 ∧ ∀ q ∈ l1, q.value ≠ none)
    ∧ (first_unfilled doc.placeholders = none →
         ∀ p ∈ doc.placeholders, p.value ≠ none) := by
  refine ⟨?_, ?_, ?_, fun p h => first_unfilled_some_spec _ p h,
    fun h => first_unfilled_none_spec _ h⟩
  · cases hc : doc.placeholders.find? (fun p => p.value.isNone) with
    | none => simp [process_message, hc, first_unfilled]
    | some cur =>
      by_cases hacc : env.process_result.value_accepted
      · cases hn : (set_first_none env.process_result.extracted_value
            doc.placeholders).find? (fun p => p.value.isNone) with
        | none => simp [process_message, hc, hacc, hn, first_unfilled]
        | some np => simp [process_message, hc, hacc, hn, first_unfilled]
      · simp [process_message, hc, hacc, first_unfilled]
  · cases hc : doc.placeholders.find? (fun p => p.value.isNone) with
    | none => simp [start_session, hc, first_unfilled]
    | some cur => simp [start_session, hc, first_unfilled]
  · simp [get_session_status, first_unfilled]

theorem claim5_witness :
    ((process_message fillerEnvC docTwoC "hi" "t0").1.current_placeholder
       = first_unfilled (process_message fillerEnvC docTwoC "hi" "t0").2.placeholders)
    ∧ ((start_session fillerEnvC "s" docTwoC "t0").1.current_placeholder
       = first_unfilled docTwoC.placeholders) :=
  ⟨(claim5_current_is_first_unfilled fillerEnvC docTwoC "hi" "t0" "s" "d").1,
   (claim5_current_is_first_unfilled fillerEnvC docTwoC "hi" "t0" "s" "d").2.1⟩

/-- C10: a turn processed for a document with no unfilled placeholder leaves
every placeholder untouched; the result reports `completed = true`,
`value_accepted = false` and the completion message, and the only change to
the saved document is the appended assistant message (the user message is
not even recorded in this branch). -/
theorem claim10_completed_turn_frame (env : FillerEnv) (doc : Document)
    (msg now : String)
    (h : doc.placeholders.all (fun p => p.value.isSome) = true) :
    (process_message env doc msg now).1.completed = true
    ∧ (process_message env doc msg now).1.value_accepted = false
    ∧ (process_message env doc msg now).1.message = allFilledMsg
    ∧ (process_message env doc msg now).2
        = { doc with conversation_history :=
              doc.conversation_history ++ [⟨"assistant", allFilledMsg, now, none⟩] } := by
  have hc := find?_isNone_none_of_all_isSome doc.placeholders h
  simp [process_message, hc]

theorem claim10_witness :
    docFilledC.placeholders.all (fun p => p.value.isSome) = true
    ∧ (process_message fillerEnvC docFilledC "hi" "t0").1.completed = true
    ∧ (process_message fillerEnvC docFilledC "hi" "t0").1.value_accepted = false
    ∧ (process_message fillerEnvC docFilledC "hi" "t0").2
        = { docFilledC with conversation_history :=
              docFilledC.conversation_history
                ++ [⟨"assistant", allFilledMsg, "t0", none⟩] } := by
  have hall : docFilledC.placeholders.all (fun p => p.value.isSome) = true := by decide
  have hmain := claim10_completed_turn_frame fillerEnvC docFilledC "hi" "t0" hall
  exact ⟨hall, hmain.1, hmain.2.1, hmain.2.2.2⟩

theorem joinT_nil : joinT [] = [] := rfl

theorem joinT_cons (x : Text) (xs : List Text) : joinT (x :: xs) = x ++ joinT xs := rfl

theorem joinT_replicate_nil (n : Nat) :
    joinT (List.replicate n ([] : Text)) = [] := by
  induction n with
  | zero => rfl
  | succ k ih => simp [List.replicate, joinT_cons, ih]

theorem joinT_map_nil (l : List Text) :
    joinT (l.map fun _ => ([] : Text)) = [] := by
  simp [List.map_const, joinT_replicate_nil]

theorem isPre_iff (p : Text) : ∀ s, isPre p s = true ↔ ∃ b, s = p ++ b := by
  induction p with
  | nil => intro s; simp [isPre]
  | cons a ps ih =>
    intro s
    cases s with
    | nil =>
      simp only [isPre, List.cons_append]
      constructor
      · intro h; cases h
      · rintro ⟨b, hb⟩; cases hb
    | cons b ss =>
      rw [isPre]
      constructor
      · intro h
        have h1 : a = b := by
          rcases Bool.and_eq_true .. |>.mp h with ⟨h1, _⟩
          exact of_decide_eq_true h1
        have h2 : isPre ps ss = true := (Bool.and_eq_true .. |>.mp h).2
        obtain ⟨b', rfl⟩ := (ih ss).mp h2
        exact ⟨b', by simp [h1]⟩
      · rintro ⟨b', hb⟩
        rw [List.cons_append] at hb
        injection hb with hb1 hb2
        subst hb1
        exact Bool.and_eq_true .. |>.mpr ⟨decide_eq_true rfl, (ih ss).mpr ⟨b', hb2⟩⟩

theorem replaceFirst_leftmost (pat m : Text) (hne : pat ≠ []) :
    ∀ s, containsSub pat s = true →
      ∃ a b, s = a ++ pat ++ b ∧ replaceFirst pat m s = a ++ m ++ b
        ∧ ∀ a2 b2, s = a2 ++ pat ++ b2 → a.length ≤ a2.length := by
  intro s
  induction s with
  | nil =>
    intro h
    rw [containsSub, List.isEmpty_iff] at h
    exact absurd h hne
  | cons c t ih =>
    intro h
    by_cases hp : isPre pat (c :: t) = true
    · obtain ⟨b, hb⟩ := (isPre_iff pat (c :: t)).mp hp
      refine ⟨[], b, by simpa using hb, ?_, fun a2 b2 _ => Nat.zero_le _⟩
      rw [replaceFirst, if_pos hp, hb]
      simp [List.drop_left]
    · have ht : containsSub pat t = true := by
        rw [containsSub, Bool.or_eq_true] at h
        rcases h with h | h
        · exact absurd h hp
        · exact h
      obtain ⟨a, b, h1, h2, h3⟩ := ih ht
      refine ⟨c :: a, b, by simp [h1], ?_, ?_⟩
      · rw [replaceFirst, if_neg hp, h2]
        simp
      · intro a2 b2 h4
        cases a2 with
        | nil =>
          exact absurd ((isPre_iff pat (c :: t)).mpr ⟨b2, by simpa using h4⟩) hp
        | cons c2 a2' =>
          simp only [List.cons_append, List.cons.injEq] at h4
          have := h3 a2' b2 h4.2
          simpa using Nat.succ_le_succ this

theorem replaceInParas_miss (pat m : Text) :
    ∀ ps, (∀ q ∈ ps, paraHit pat m q = false) →
      replaceInParas pat m ps = (ps, false) := by
  intro ps
  induction ps with
  | nil => intro _; rfl
  | cons p t ih =>
    intro h
    rw [replaceInParas]
    have hp := h p (by simp)
    simp [hp, ih (fun q hq => h q (by simp [hq]))]

theorem replaceInParas_first_hit (pat m : Text) :
    ∀ l1 (p : Para) l2, (∀ q ∈ l1, paraHit pat m q = false) →
      paraHit pat m p = true →
      replaceInParas pat m (l1 ++ p :: l2)
        = (l1 ++ collapsePara pat m p :: l2, true) := by
  intro l1
  induction l1 with
  | nil => intro p l2 _ hp; simp [replaceInParas, hp]
  | cons q t ih =>
    intro p l2 h hp
    have hq := h q (by simp)
    rw [List.cons_append, replaceInParas]
    simp [hq, ih p l2 (fun r hr => h r (by simp [hr])) hp]

theorem replaceInCells_miss (pat m : Text) :
    ∀ cs, (∀ c ∈ cs, ∀ q ∈ c.paras, paraHit pat m q = false) →
      replaceInCells pat m cs = (cs, false) := by
  intro cs
  induction cs with
  | nil => intro _; rfl
  | cons c t ih =>
    intro h
    rw [replaceInCells]
    have hc : replaceInCell pat m c = (⟨c.paras⟩, false) := by
      rw [replaceInCell, replaceInParas_miss pat m c.paras (h c (by simp))]
    simp [hc, ih (fun c' hc' q hq => h c' (by simp [hc']) q hq)]

theorem replaceInRows_miss (pat m : Text) :
    ∀ rs, (∀ r ∈ rs, ∀ c ∈ r.cells, ∀ q ∈ c.paras, paraHit pat m q = false) →
      replaceInRows pat m rs = (rs, false) := by
  intro rs
  induction rs with
  | nil => intro _; rfl
  | cons r t ih =>
    intro h
    rw [replaceInRows]
    have hr := replaceInCells_miss pat m r.cells (h r (by simp))
    simp [hr, ih (fun r' hr' => h r' (by simp [hr']))]

theorem replaceInTables_miss (pat m : Text) :
    ∀ ts, (∀ t ∈ ts, ∀ r ∈ t.rows, ∀ c ∈ r.cells, ∀ q ∈ c.paras,
        paraHit pat m q = false) →
      replaceInTables pat m ts = (ts, false) := by
  intro ts
  induction ts with
  | nil => intro _; rfl
  | cons t ts' ih =>
    intro h
    rw [replaceInTables]
    have ht := replaceInRows_miss pat m t.rows (h t (by simp))
    simp [ht, ih (fun t' ht' => h t' (by simp [ht']))]

theorem collapsePara_text (pat m : Text) (p : Para) :
    (collapsePara pat m p).text = replaceFirst pat m p.text := by
  rcases p with ⟨runs⟩
  cases runs with
  | nil => simp [collapsePara, collapseRuns, Para.text, joinT_cons, joinT_nil]
  | cons r rs =>
    simp [collapsePara, collapseRuns, Para.text, joinT_cons, joinT_replicate_nil]

theorem collapsePara_tail_empty (pat m : Text) (p : Para) :
    ∀ r ∈ (collapsePara pat m p).runs.tail, r = ([] : Text) := by
  rcases p with ⟨runs⟩
  cases runs with
  | nil => simp [collapsePara, collapseRuns]
  | cons r rs =>
    intro x hx
    simp only [collapsePara, collapseRuns, List.tail_cons, List.mem_map] at hx
    obtain ⟨_, _, hx2⟩ := hx
    exact hx2.symm

theorem temp_step_para_hit (d : Docx) (ph : PlaceHolder) (l1 : List Para)
    (p : Para) (l2 : List Para)
    (hd : d.paras = l1 ++ p :: l2)
    (h1 : ∀ q ∈ l1, paraHit ph.placeholder.data ph.unique_marker.data q = false)
    (h2 : paraHit ph.placeholder.data ph.unique_marker.data p = true) :
    temp_step d ph = Docx.mk
      (l1 ++ collapsePara ph.placeholder.data ph.unique_marker.data p :: l2)
      d.tables := by
  simp only [temp_step, hd,
    replaceInParas_first_hit ph.placeholder.data ph.unique_marker.data l1 p l2 h1 h2,
    if_true]

theorem temp_step_miss (d : Docx) (ph : PlaceHolder)
    (h1 : ∀ q ∈ d.paras, paraHit ph.placeholder.data ph.unique_marker.data q = false)
    (h2 : ∀ t ∈ d.tables, ∀ r ∈ t.rows, ∀ c ∈ r.cells, ∀ q ∈ c.paras,
        paraHit ph.placeholder.data ph.unique_marker.data q = false) :
    temp_step d ph = d := by
  simp only [temp_step,
    replaceInParas_miss ph.placeholder.data ph.unique_marker.data d.paras h1,
    replaceInTables_miss ph.placeholder.data ph.unique_marker.data d.tables h2,
    Bool.false_eq_true, if_false]

/-- C2: the templater processes placeholders one at a time in detection
order against the current working copy; per placeholder, the first
occurrence of its original text is substituted (leftmost occurrence of the
first hit paragraph; paragraphs searched before table cells), the hit
paragraph's text is collapsed onto its first run with all other runs
emptied, and an unlocatable placeholder leaves the document unchanged
(non-fatal).  Consequently a document with the same placeholder string in
a paragraph and in a table cell, templated with two detection records
carrying distinct markers, ends with each occurrence replaced exactly
once by its own marker. -/
theorem claim2_templater :
    (∀ pat m s, containsSub pat s = true → pat ≠ [] →
       ∃ a b, s = a ++ pat ++ b ∧ replaceFirst pat m s = a ++ m ++ b
         ∧ ∀ a2 b2, s = a2 ++ pat ++ b2 → a.length ≤ a2.length)
    ∧ (∀ (d : Docx) (phs : List PlaceHolder),
        create_temp_document d phs = phs.foldl temp_step d)
    ∧ (∀ (d : Docx) (ph : PlaceHolder) (l1 : List Para) (p : Para) (l2 : List Para),
        d.paras = l1 ++ p :: l2 →
        (∀ q ∈ l1, paraHit ph.placeholder.data ph.unique_marker.data q = false) →
        paraHit ph.placeholder.data ph.unique_marker.data p = true →
        temp_step d ph = Docx.mk
          (l1 ++ collapsePara ph.placeholder.data ph.unique_marker.data p :: l2)
          d.tables)
    ∧ (∀ pat m p, (collapsePara pat m p).text = replaceFirst pat m p.text
        ∧ ∀ r ∈ (collapsePara pat m p).runs.tail, r = ([] : Text))
    ∧ (∀ (d : Docx) (ph : PlaceHolder),
        (∀ q ∈ d.paras, paraHit ph.placeholder.data ph.unique_marker.data q = false) →
        (∀ t ∈ d.tables, ∀ r ∈ t.rows, ∀ c ∈ r.cells, ∀ q ∈ c.paras,
            paraHit ph.placeholder.data ph.unique_marker.data q = false) →
        temp_step d ph = d)
    ∧ (create_temp_document docDupC [phD1, phD2] = docDupExpectedC
       ∧ countOccs "[Date]".data (Docx.fullText docDupExpectedC) = 0
       ∧ countOccs phD1.unique_marker.data (Docx.fullText docDupExpectedC) = 1
       ∧ countOccs phD2.unique_marker.data (Docx.fullText docDupExpectedC) = 1
       ∧ phD1.unique_marker ≠ phD2.unique_marker
       ∧ phD1.placeholder = phD2.placeholder) := by
  refine ⟨fun pat m s hc hne => replaceFirst_leftmost pat m hne s hc,
    fun d phs => rfl,
    fun d ph l1 p l2 hd h1 h2 => temp_step_para_hit d ph l1 p l2 hd h1 h2,
    fun pat m p => ⟨collapsePara_text pat m p, collapsePara_tail_empty pat m p⟩,
    fun d ph h1 h2 => temp_step_miss d ph h1 h2,
    ?_, ?_, ?_, ?_, ?_, ?_⟩
  · rfl
  · decide
  · decide
  · decide
  · decide
  · rfl

theorem claim2_witness :
    (∃ a b, "Start: [Date]".data = a ++ "[Date]".data ++ b
       ∧ replaceFirst "[Date]".data "M".data "Start: [Date]".data = a ++ "M".data ++ b
       ∧ ∀ a2 b2, "Start: [Date]".data = a2 ++ "[Date]".data ++ b2 →
           a.length ≤ a2.length)
    ∧ temp_step docDupC phD1 = Docx.mk
        [collapsePara phD1.placeholder.data phD1.unique_marker.data
          ⟨["Start: ".data, "[Da".data, "te]".data]⟩] docDupC.tables :=
  ⟨claim2_templater.1 "[Date]".data "M".data "Start: [Date]".data
      (by decide) (by decide),
   claim2_templater.2.2.1 docDupC phD1 []
      ⟨["Start: ".data, "[Da".data, "te]".data]⟩ [] rfl (by simp) (by decide)⟩

theorem countP_isNone_zero_iff_all_isSome (l : List PlaceHolder) :
    (l.countP (fun p => p.value.isNone) = 0) ↔ l.all (fun p => p.value.isSome) = true := by
  rw [List.countP_eq_zero, List.all_eq_true]
  constructor
  · intro h p hp
    have := h p hp
    cases hv : p.value <;> simp_all
  · intro h p hp
    have := h p hp
    cases hv : p.value <;> simp_all

/-- C3 (amended): `generate_document` produces an output iff every
placeholder has a value; on success the output is the fold of the per-run
marker substitution over the working copy (the working copy itself is not
modified), and — as the concrete templated document shows — markers that
occupy a single run are all eliminated and replaced by the string form of
the values.  (Markers spanning a run boundary are the exception recorded by
the counterexample.) -/
theorem claim3_generate_amended (phs : List PlaceHolder) (w : Docx) :
    (exceptOk (generate_document phs w) = phs.all (fun p => p.value.isSome))
    ∧ (∀ d, generate_document phs w = Except.ok d → d = phs.foldl genApply w)
    ∧ (generate_document [phD1filled, phD2filled] docDupExpectedC
         = Except.ok docGenExpectedC
       ∧ containsSub phD1filled.unique_marker.data (Docx.fullText docGenExpectedC) = false
       ∧ containsSub phD2filled.unique_marker.data (Docx.fullText docGenExpectedC) = false
       ∧ countOccs "2024-01-01".data (Docx.fullText docGenExpectedC) = 1
       ∧ countOccs "2025-02-02".data (Docx.fullText docGenExpectedC) = 1) := by
  refine ⟨?_, ?_, rfl, by decide, by decide, by decide, by decide⟩
  · by_cases h : 0 < phs.countP (fun p => p.value.isNone)
    · have h2 : phs.all (fun p => p.value.isSome) = false := by
        rw [← Bool.not_eq_true, ← countP_isNone_zero_iff_all_isSome]
        omega
      rw [generate_document, if_pos h, h2]
      rfl
    · have h2 : phs.all (fun p => p.value.isSome) = true := by
        rw [← countP_isNone_zero_iff_all_isSome]
        omega
      rw [generate_document, if_neg h, h2]
      rfl
  · intro d hd
    rw [generate_document] at hd
    split at hd
    · cases hd
    · injection hd with h
      exact h.symm

theorem claim3_counterexample :
    generate_document [phSplitC] docSplitC = Except.ok docSplitC
    ∧ containsSub phSplitC.unique_marker.data (Docx.fullText docSplitC) = true
    ∧ [phSplitC].all (fun p => p.value.isSome) = true :=
  ⟨rfl, by decide, by decide⟩

theorem claim3_witness :
    (exceptOk (generate_document [phSplitC] docSplitC)
       = [phSplitC].all (fun p => p.value.isSome))
    ∧ docSplitC = [phSplitC].foldl genApply docSplitC :=
  ⟨(claim3_generate_amended [phSplitC] docSplitC).1,
   (claim3_generate_amended [phSplitC] docSplitC).2.1 docSplitC rfl⟩

theorem mkMarkerCore_injective : Function.Injective mkMarkerCore := by
  intro t1 t2 h
  have hd : "\x7b\x7bPLACEHOLDER_".data ++ t1 ++ "\x7d\x7d".data
      = "\x7b\x7bPLACEHOLDER_".data ++ t2 ++ "\x7d\x7d".data := by
    have := congrArg String.data h
    simpa [mkMarkerCore] using this
  rw [List.append_assoc, List.append_assoc] at hd
  have h1 := List.append_cancel_left hd
  exact List.append_cancel_right h1

theorem parse_markers_eq (env : ParseEnv) (dets : List PlaceholderDetection) :
    (parse_document env dets).map (fun p => p.unique_marker)
      = ((List.range dets.length).map
          fun i => markerTrunc (env.uuid_hex i)).map mkMarkerCore := by
  rw [← List.enum_map_fst dets, parse_document]
  simp only [List.map_map]
  refine List.map_congr_left ?_
  intro x hx
  rcases x with ⟨i, det⟩
  cases hx2 : env.analysis_of i <;> simp [Function.comp, hx2, mkUniqueMarker]

/-- C1 (amended): the markers of a parsed document are pairwise distinct
whenever the 8-hex-character uuid truncations drawn for its placeholders
are pairwise distinct (the marker text is injective in the truncation, but
the code performs no collision check beyond the draw itself), and one
placeholder is produced per detection. -/
theorem claim1_markers_amended (env : ParseEnv) (dets : List PlaceholderDetection)
    (h : ((List.range dets.length).map fun i => markerTrunc (env.uuid_hex i)).Nodup) :
    ((parse_document env dets).map (fun p => p.unique_marker)).Nodup
    ∧ (parse_document env dets).length = dets.length := by
  constructor
  · rw [parse_markers_eq]
    exact h.map mkMarkerCore_injective
  · simp [parse_document]

/-- C1 counterexample: two detections with different original texts whose
uuid draws share their first 8 hex characters receive equal markers — the
parser checks nothing, so `len(placeholders) ≠ len(unique(uniqueMarker))`
for this run. -/
theorem claim1_counterexample :
    ¬ (((parse_document parseEnvDupC [detAC, detBC]).map
          (fun p => p.unique_marker)).Nodup)
    ∧ (parse_document parseEnvDupC [detAC, detBC]).length = 2
    ∧ detAC.text ≠ detBC.text := by
  refine ⟨by decide, by decide, by decide⟩

theorem claim1_witness :
    (((List.range ([detAC, detBC] : List PlaceholderDetection).length).map
        fun i => markerTrunc (parseEnvOkC.uuid_hex i)).Nodup)
    ∧ ((parse_document parseEnvOkC [detAC, detBC]).map
        (fun p => p.unique_marker)).Nodup :=
  ⟨by decide, (claim1_markers_amended parseEnvOkC [detAC, detBC] (by decide)).1⟩

theorem rule_passed_conf_ge (env : ValidatorEnv) (value : String)
    (t : PlaceholderType)
    (h : (rule_based_validation env value t).passed = true) :
    (0.75 : ℚ) ≤ (rule_based_validation env value t).confidence := by
  revert h
  cases t <;>
    simp only [rule_based_validation, validate_email, validate_phone,
      validate_date, validate_number, validate_address, validate_text] <;>
    (repeat' split) <;> intro h <;> simp_all <;> norm_num

/-- C4 (amended): a rule failure short-circuits with `is_valid = false`,
confidence exactly 0 and the rule layer's correction suggestion (which is
absent for the empty-text failure — the counterexample), independently of
the LLM response; a rule pass blends `0.5/0.5` when the rule confidence is
at least `0.75` and `0.4/0.6` otherwise, with
`is_valid ↔ final confidence > 0.5`. -/
theorem claim4_hybrid_amended (env : ValidatorEnv) (value : String)
    (t : PlaceholderType) (llmResp llmResp2 : Option ℚ) :
    ((rule_based_validation env value t).passed = false →
       (validate env value t llmResp).is_valid = false
       ∧ (validate env value t llmResp).confidence = 0
       ∧ (validate env value t llmResp).validation_message
           = (rule_based_validation env value t).message
       ∧ (validate env value t llmResp).suggested_correction
           = (rule_based_validation env value t).suggestion
       ∧ validate env value t llmResp = validate env value t llmResp2)
    ∧ ((rule_based_validation env value t).passed = true →
       (validate env value t llmResp).confidence
         = (if 0.75 ≤ (rule_based_validation env value t).confidence
            then (rule_based_validation env value t).confidence * 0.5
              + llm_confidence_check llmResp * 0.5
            else (rule_based_validation env value t).confidence * 0.4
              + llm_confidence_check llmResp * 0.6)
       ∧ ((validate env value t llmResp).is_valid = true
           ↔ 0.5 < (validate env value t llmResp).confidence)
       ∧ (validate env value t llmResp).suggested_correction = none) := by
  constructor
  · intro hp
    simp [validate, hp]
  · intro hp
    refine ⟨?_, ?_, ?_⟩
    · simp [validate, hp]
    · simp [validate, hp, decide_eq_true_eq]
    · simp [validate, hp]

/-- C4 counterexample: the empty TEXT value fails the rule with
`is_valid = false` and confidence 0, but `suggested_correction` is `None`
— no correction suggestion is returned, contrary to the claim. -/
theorem claim4_counterexample :
    (validate envValC "" PlaceholderType.TEXT (some 0.9)).is_valid = false
    ∧ (validate envValC "" PlaceholderType.TEXT (some 0.9)).confidence = 0
    ∧ (validate envValC "" PlaceholderType.TEXT (some 0.9)).suggested_correction = none
    ∧ (rule_based_validation envValC "" PlaceholderType.TEXT).passed = false :=
  ⟨rfl, rfl, rfl, rfl⟩

theorem claim4_witness :
    ((validate envValC "" PlaceholderType.TEXT (some 0.9)).suggested_correction
       = (rule_based_validation envValC "" PlaceholderType.TEXT).suggestion)
    ∧ (validate envValC "ok" PlaceholderType.TEXT (some 0.9)).suggested_correction
        = none :=
  ⟨((claim4_hybrid_amended envValC "" PlaceholderType.TEXT (some 0.9) none).1
      (by decide)).2.2.2.1,
   ((claim4_hybrid_amended envValC "ok" PlaceholderType.TEXT (some 0.9) none).2
      (by decide)).2.2⟩

/-- C8: when the LLM confidence step raises, the fixed fallback confidence
0.7 is used; every rule-passing value has rule confidence at least 0.75, so
the blended confidence is `rule*0.5 + 0.7*0.5 > 0.5` and the value is still
returned as valid (permissive fail-open). -/
theorem claim8_fail_open (env : ValidatorEnv) (value : String)
    (t : PlaceholderType)
    (h : (rule_based_validation env value t).passed = true) :
    llm_confidence_check none = 0.7
    ∧ (0.75 : ℚ) ≤ (rule_based_validation env value t).confidence
    ∧ (validate env value t none).confidence
        = (rule_based_validation env value t).confidence * 0.5 + 0.7 * 0.5
    ∧ (validate env value t none).is_valid = true := by
  have hc := rule_passed_conf_ge env value t h
  refine ⟨rfl, hc, ?_, ?_⟩
  · simp [validate, h, hc, llm_confidence_check]
  · simp [validate, h, hc, llm_confidence_check, decide_eq_true_eq]
    linarith

theorem claim8_witness :
    (rule_based_validation envValC "john@example.com" PlaceholderType.EMAIL).passed
      = true
    ∧ (validate envValC "john@example.com" PlaceholderType.EMAIL none).is_valid
      = true :=
  ⟨by decide,
   (claim8_fail_open envValC "john@example.com" PlaceholderType.EMAIL
      (by decide)).2.2.2⟩

theorem detection_of_conf (env : DetectorEnv) (txt : Text) (m : RawMatch)
    (d : PlaceholderDetection) (h : detection_of env txt m = some d) :
    (0.5 : ℚ) < d.confidence := by
  simp only [detection_of] at h
  split at h
  · exact absurd h (by simp)
  · split at h
    · rename_i hconf
      cases h
      exact hconf
    · exact absurd h (by simp)

theorem raw_detections_conf (env : DetectorEnv) (txt : Text) :
    ∀ r ∈ raw_detections env txt, (0.5 : ℚ) < r.confidence := by
  intro r hr
  simp only [raw_detections, List.mem_flatMap, List.mem_filterMap] at hr
  obtain ⟨i, _, m, _, hm⟩ := hr
  exact detection_of_conf env txt m r hm

theorem dedup_subset (l : List PlaceholderDetection) :
    ∀ (seen : List Nat) (d : PlaceholderDetection),
      d ∈ dedup_by_start seen l → d ∈ l := by
  induction l with
  | nil => intro seen d h; simp [dedup_by_start] at h
  | cons a t ih =>
    intro seen d h
    rw [dedup_by_start] at h
    by_cases ha : a.start_pos ∈ seen
    · rw [if_pos ha] at h
      exact List.mem_cons_of_mem a (ih seen d h)
    · rw [if_neg ha] at h
      rcases List.mem_cons.mp h with rfl | h'
      · exact List.mem_cons_self _ _
      · exact List.mem_cons_of_mem _ (ih _ d h')

theorem dedup_nodup_and_seen (l : List PlaceholderDetection) :
    ∀ seen : List Nat,
      ((dedup_by_start seen l).map (fun d => d.start_pos)).Nodup
      ∧ ∀ s ∈ seen, s ∉ (dedup_by_start seen l).map (fun d => d.start_pos) := by
  induction l with
  | nil => intro seen; exact ⟨by simp [dedup_by_start], by simp [dedup_by_start]⟩
  | cons a t ih =>
    intro seen
    rw [dedup_by_start]
    by_cases ha : a.start_pos ∈ seen
    · rw [if_pos ha]
      exact ih seen
    · rw [if_neg ha]
      obtain ⟨ihn, ihs⟩ := ih (a.start_pos :: seen)
      constructor
      · simp only [List.map_cons, List.nodup_cons]
        exact ⟨ihs a.start_pos (by simp), ihn⟩
      · intro s hs
        simp only [List.map_cons, List.mem_cons, not_or]
        constructor
        · intro hcontra
          rw [hcontra] at hs
          exact ha hs
        · exact ihs s (by simp [hs])

theorem dedup_first (l : List PlaceholderDetection) :
    ∀ (seen : List Nat) (d : PlaceholderDetection),
      d ∈ dedup_by_start seen l →
      d.start_pos ∉ seen
      ∧ l.find? (fun r => r.start_pos = d.start_pos) = some d := by
  induction l with
  | nil => intro seen d h; simp [dedup_by_start] at h
  | cons a t ih =>
    intro seen d h
    rw [dedup_by_start] at h
    by_cases ha : a.start_pos ∈ seen
    · rw [if_pos ha] at h
      obtain ⟨hns, hfind⟩ := ih seen d h
      have hne : a.start_pos ≠ d.start_pos := by
        intro hcontra
        rw [hcontra] at ha
        exact hns ha
      exact ⟨hns, by simp [List.find?_cons, hne, hfind]⟩
    · rw [if_neg ha] at h
      rcases List.mem_cons.mp h with rfl | h'
      · exact ⟨ha, by simp [List.find?_cons]⟩
      · obtain ⟨hns, hfind⟩ := ih (a.start_pos :: seen) d h'
        have hne : a.start_pos ≠ d.start_pos := by
          intro hcontra
          exact hns (by simp [hcontra])
        refine ⟨fun hc => hns (by simp [hc]), ?_⟩
        simp [List.find?_cons, hne, hfind]

theorem dedup_cover (l : List PlaceholderDetection) :
    ∀ (seen : List Nat) (r : PlaceholderDetection), r ∈ l →
      (∃ d ∈ dedup_by_start seen l, d.start_pos = r.start_pos)
      ∨ r.start_pos ∈ seen := by
  induction l with
  | nil => intro seen r h; simp at h
  | cons a t ih =>
    intro seen r hr
    rw [dedup_by_start]
    by_cases ha : a.start_pos ∈ seen
    · rw [if_pos ha]
      rcases List.mem_cons.mp hr with rfl | h'
      · exact Or.inr ha
      · exact ih seen r h'
    · rw [if_neg ha]
      rcases List.mem_cons.mp hr with rfl | h'
      · exact Or.inl ⟨r, by simp, rfl⟩
      · rcases ih (a.start_pos :: seen) r h' with ⟨d, hd, he⟩ | hseen
        · exact Or.inl ⟨d, by simp [hd], he⟩
        · rcases List.mem_cons.mp hseen with heq | hseen'
          · exact Or.inl ⟨a, by simp, heq.symm⟩
          · exact Or.inr hseen'

/-- C7: the detector's output holds only detections with confidence
strictly above 0.5; start offsets are pairwise distinct; each kept
detection is the first entry with its start offset in the pre-dedup list —
which concatenates the per-pattern matches in pattern order, so the earlier
pattern wins a contested offset — and every scored match's offset is
represented. -/
theorem claim7_detector (env : DetectorEnv) (document_text : Text) :
    (∀ d ∈ detector_run env document_text, (0.5 : ℚ) < d.confidence)
    ∧ ((detector_run env document_text).map (fun d => d.start_pos)).Nodup
    ∧ (∀ d ∈ detector_run env document_text,
        (raw_detections env document_text).find?
          (fun r => r.start_pos = d.start_pos) = some d)
    ∧ (∀ r ∈ raw_detections env document_text,
        ∃ d ∈ detector_run env document_text, d.start_pos = r.start_pos) := by
  refine ⟨?_, ?_, ?_, ?_⟩
  · intro d hd
    exact raw_detections_conf env document_text d
      (dedup_subset (raw_detections env document_text) [] d hd)
  · exact (dedup_nodup_and_seen (raw_detections env document_text) []).1
  · intro d hd
    exact (dedup_first (raw_detections env document_text) [] d hd).2
  · intro r hr
    rcases dedup_cover (raw_detections env document_text) [] r hr with h | h
    · exact h
    · simp at h

theorem claim7_witness :
    (∀ d ∈ detector_run detEnvC "Company Name: [Company Name]".data,
       (0.5 : ℚ) < d.confidence)
    ∧ ((detector_run detEnvC "Company Name: [Company Name]".data).map
        (fun d => d.start_pos)).Nodup :=
  ⟨(claim7_detector detEnvC "Company Name: [Company Name]".data).1,
   (claim7_detector detEnvC "Company Name: [Company Name]".data).2.1⟩

theorem tryPatterns_eq_ordered (m : Text) :
    tryPatterns m = ordered_pattern_value m := by
  unfold tryPatterns ordered_pattern_value
  simp only [List.foldr]
  cases patCheck (p1Capture m) <;> cases patCheck (p2Capture m) <;>
    cases patCheck (p3Capture m) <;> cases patCheck (p4Capture m) <;> rfl

/-- C6 (amended): on LLM failure the fallback, on the stripped message:
question-like input (interrogative keyword or "?" as a substring) yields no
value with needs_clarification; then input under 2 characters yields the
same; then the first of the four ordered patterns whose captured value —
after `.strip()` and truncation at a trailing `\s+and\s+it…` clause —
is longer than 1 character yields that cleaned value at confidence 0.75
(a capture failing the check falls through to the next pattern); then a
message under 200 characters is returned verbatim at 0.6; otherwise
clarification is requested. -/
theorem claim6_fallback_amended (message : String) :
    (isQuestionLike (stripPyT message.data) = true →
       fallback_extraction message
         = ⟨none, 0, true, "Message appears to be a question"⟩)
    ∧ (isQuestionLike (stripPyT message.data) = false →
       (stripPyT message.data).length < 2 →
       fallback_extraction message = ⟨none, 0, true, "Message too short"⟩)
    ∧ (∀ v, isQuestionLike (stripPyT message.data) = false →
       2 ≤ (stripPyT message.data).length →
       ordered_pattern_value (stripPyT message.data) = some v →
       fallback_extraction message
         = ⟨some ⟨v⟩, 0.75, false, "Extracted using pattern matching"⟩)
    ∧ (isQuestionLike (stripPyT message.data) = false →
       2 ≤ (stripPyT message.data).length →
       ordered_pattern_value (stripPyT message.data) = none →
       (stripPyT message.data).length < 200 →
       fallback_extraction message
         = ⟨some ⟨stripPyT message.data⟩, 0.6, false,
            "Direct input without pattern"⟩)
    ∧ (isQuestionLike (stripPyT message.data) = false →
       2 ≤ (stripPyT message.data).length →
       ordered_pattern_value (stripPyT message.data) = none →
       200 ≤ (stripPyT message.data).length →
       fallback_extraction message = ⟨none, 0, true, "Message too complex"⟩) := by
  refine ⟨?_, ?_, ?_, ?_, ?_⟩
  · intro hq
    simp [fallback_extraction, hq]
  · intro hq hlen
    simp [fallback_extraction, hq, hlen]
  · intro v hq hlen hord
    have hlt : ¬ ((stripPyT message.data).length < 2) := by omega
    simp [fallback_extraction, hq, hlt, tryPatterns_eq_ordered, hord]
  · intro hq hlen hord hshort
    have hlt : ¬ ((stripPyT message.data).length < 2) := by omega
    simp [fallback_extraction, hq, hlt, tryPatterns_eq_ordered, hord, hshort]
  · intro hq hlen hord hlong
    have hlt : ¬ ((stripPyT message.data).length < 2) := by omega
    have hns : ¬ ((stripPyT message.data).length < 200) := by omega
    simp [fallback_extraction, hq, hlt, tryPatterns_eq_ordered, hord, hns]

/-- C6 counterexample: for `"Acme and it is x"` the code returns `"Acme"`
at confidence 0.75, but `"Acme"` is not the captured value of any of the
four patterns (pattern 1 captures `"x"`, pattern 4 captures
`"Acme and it"`, which is longer than 1 character) nor the verbatim
message — the claim's "returns that [captured] value" fails because the
capture is first truncated at the `\s+and\s+it…` clause. -/
theorem claim6_counterexample :
    fallback_extraction "Acme and it is x"
      = ⟨some "Acme", 0.75, false, "Extracted using pattern matching"⟩
    ∧ p1Capture (stripPyT "Acme and it is x".data) = some "x".data
    ∧ p2Capture (stripPyT "Acme and it is x".data) = none
    ∧ p3Capture (stripPyT "Acme and it is x".data) = none
    ∧ p4Capture (stripPyT "Acme and it is x".data) = some "Acme and it".data
    ∧ 1 < "Acme and it".length
    ∧ "Acme".data ≠ "x".data
    ∧ "Acme".data ≠ "Acme and it".data
    ∧ "Acme".data ≠ stripPyT "Acme and it is x".data :=
  ⟨rfl, by decide, by decide, by decide, by decide, by decide, by decide,
   by decide, by decide⟩

theorem claim6_witness :
    fallback_extraction "what format?"
      = ⟨none, 0, true, "Message appears to be a question"⟩
    ∧ fallback_extraction "My company name is Lexsy"
      = ⟨some "Lexsy", 0.75, false, "Extracted using pattern matching"⟩
    ∧ fallback_extraction "John Smith"
      = ⟨some "John Smith", 0.6, false, "Direct input without pattern"⟩ :=
  ⟨(claim6_fallback_amended "what format?").1 (by decide),
   (claim6_fallback_amended "My company name is Lexsy").2.2.1
      "Lexsy".data (by decide) (by decide) (by decide),
   (claim6_fallback_amended "John Smith").2.2.2.1
      (by decide) (by decide) (by decide) (by decide)⟩
